import Mathlib

/-!
Verification of the auto-clicker automation core (src/gui.rs, src/window.rs).

The embedding models:
- the data model of src/gui.rs (ClickInterval, MouseButton, ClickType,
  ClickOptions, ClickPosition);
- the pure timing converter `convert_time_to_duration` of src/window.rs
  (lines 403-414), with Rust `usize` arithmetic embedded as natural-number
  arithmetic wrapped modulo 2^64 (release-build semantics; debug builds
  panic at the same inputs, so either way there is no saturation);
- `std::time::Duration` as a pair of a seconds count and a nanosecond
  remainder, with `Duration::new`'s carry normalisation made explicit and
  its panic condition stated separately;
- one cycle of the autoclick thread loop of src/window.rs (lines 253-301)
  as a pure step function: the loop reads the shared run flag (a poisoned
  lock is modelled as `none`, in which case the source's
  `if let Ok(value) = ...lock()` keeps the previous local value), performs
  one non-blocking `try_recv` per configuration channel, and, when running,
  emits one emission round of synthetic events. Sleeps perform no state
  change and are not modelled.
-/

/-- Wrapping 64-bit addition: Rust `usize + usize` in release builds. -/
def usizeAdd (a b : Nat) : Nat := (a + b) % 2 ^ 64

/-- Wrapping 64-bit multiplication: Rust `usize * usize` in release builds. -/
def usizeMul (a b : Nat) : Nat := (a * b) % 2 ^ 64

/-- `std::time::Duration`: whole seconds (u64) and sub-second nanoseconds (u32). -/
structure Duration where
  secs : Nat
  nanos : Nat
deriving DecidableEq

/-- `Duration::new(secs, nanos)`: carries whole seconds out of the
nanosecond argument. The u64 overflow check that makes the real
constructor panic is `Duration.newPanics` below. -/
def Duration.new (secs nanos : Nat) : Duration :=
  ⟨secs + nanos / 1000000000, nanos % 1000000000⟩

/-- The condition under which Rust's `Duration::new` panics: the carried
seconds overflow u64. -/
def Duration.newPanics (secs nanos : Nat) : Prop :=
  2 ^ 64 ≤ secs + nanos / 1000000000

instance (secs nanos : Nat) : Decidable (Duration.newPanics secs nanos) := by
  unfold Duration.newPanics; infer_instance

/-- `Duration::MAX`: u64::MAX seconds plus 999 999 999 nanoseconds. -/
def durationMax : Duration := ⟨2 ^ 64 - 1, 999999999⟩

/-- Total length of a duration in nanoseconds. -/
def Duration.toNanos (d : Duration) : Nat := d.secs * 1000000000 + d.nanos

/-- `ClickInterval` from src/gui.rs: four non-negative `usize` fields. -/
structure ClickInterval where
  hours : Nat
  minutes : Nat
  seconds : Nat
  milliseconds : Nat
deriving DecidableEq

/-- The intermediate `total_milliseconds` of `convert_time_to_duration`
(src/window.rs lines 409-410), with every `usize` operation wrapping as in
a release build:
`milliseconds + (seconds * 1000) + (minutes * 60 * 1000) + (hours * 60 * 60 * 1000)`. -/
def total_milliseconds (hours minutes seconds milliseconds : Nat) : Nat :=
  usizeAdd
    (usizeAdd (usizeAdd milliseconds (usizeMul seconds 1000))
      (usizeMul (usizeMul minutes 60) 1000))
    (usizeMul (usizeMul (usizeMul hours 60) 60) 1000)

/-- `convert_time_to_duration` (src/window.rs lines 403-414):
seconds = total / 1000, nanos = (total % 1000) * 1_000_000, then
`Duration::new(seconds as u64, nanos as u32)`. The `as u32` narrowing is
the `% 2 ^ 32`; `seconds as u64` is the identity on a 64-bit target. -/
def convert_time_to_duration (hours minutes seconds milliseconds : Nat) : Duration :=
  Duration.new (total_milliseconds hours minutes seconds milliseconds / 1000)
    ((total_milliseconds hours minutes seconds milliseconds % 1000 * 1000000) % 2 ^ 32)

/-- The exact (unwrapped) total-millisecond sum the spec describes. -/
def exactTotalMs (hours minutes seconds milliseconds : Nat) : Nat :=
  milliseconds + seconds * 1000 + minutes * 60000 + hours * 3600000

lemma total_milliseconds_eq (h m s ms : Nat) :
    total_milliseconds h m s ms = exactTotalMs h m s ms % 2 ^ 64 := by
  have hA : usizeAdd ms (usizeMul s 1000) ≡ ms + s * 1000 [MOD 2 ^ 64] :=
    (Nat.mod_modEq _ _).trans (Nat.ModEq.add_left ms (Nat.mod_modEq _ _))
  have hM : usizeMul (usizeMul m 60) 1000 ≡ m * 60000 [MOD 2 ^ 64] := by
    have h1 : usizeMul (usizeMul m 60) 1000 ≡ m * 60 * 1000 [MOD 2 ^ 64] :=
      (Nat.mod_modEq _ _).trans (Nat.ModEq.mul_right 1000 (Nat.mod_modEq _ _))
    have h2 : m * 60 * 1000 = m * 60000 := by ring
    rwa [h2] at h1
  have hH : usizeMul (usizeMul (usizeMul h 60) 60) 1000 ≡ h * 3600000 [MOD 2 ^ 64] := by
    have hin : usizeMul (usizeMul h 60) 60 ≡ h * 60 * 60 [MOD 2 ^ 64] :=
      (Nat.mod_modEq _ _).trans (Nat.ModEq.mul_right 60 (Nat.mod_modEq _ _))
    have h1 : usizeMul (usizeMul (usizeMul h 60) 60) 1000 ≡ h * 60 * 60 * 1000 [MOD 2 ^ 64] :=
      (Nat.mod_modEq _ _).trans (Nat.ModEq.mul_right 1000 hin)
    have h2 : h * 60 * 60 * 1000 = h * 3600000 := by ring
    rwa [h2] at h1
  have hAB : usizeAdd (usizeAdd ms (usizeMul s 1000)) (usizeMul (usizeMul m 60) 1000)
      ≡ ms + s * 1000 + m * 60000 [MOD 2 ^ 64] :=
    (Nat.mod_modEq _ _).trans (Nat.ModEq.add hA hM)
  exact Nat.ModEq.add hAB hH

lemma total_milliseconds_lt (h m s ms : Nat) :
    total_milliseconds h m s ms < 2 ^ 64 := by
  rw [total_milliseconds_eq]
  exact Nat.mod_lt _ (by norm_num)

lemma convert_eval (h m s ms : Nat) :
    convert_time_to_duration h m s ms =
      ⟨total_milliseconds h m s ms / 1000,
        total_milliseconds h m s ms % 1000 * 1000000⟩ := by
  unfold convert_time_to_duration Duration.new
  have h1 : total_milliseconds h m s ms % 1000 * 1000000 < 2 ^ 32 := by
    have := Nat.mod_lt (total_milliseconds h m s ms) (show 0 < 1000 by norm_num)
    omega
  rw [Nat.mod_eq_of_lt h1]
  have h2 : total_milliseconds h m s ms % 1000 * 1000000 < 1000000000 := by
    have := Nat.mod_lt (total_milliseconds h m s ms) (show 0 < 1000 by norm_num)
    omega
  rw [Nat.div_eq_of_lt h2, Nat.mod_eq_of_lt h2, Nat.add_zero]

lemma toNanos_convert (h m s ms : Nat) :
    (convert_time_to_duration h m s ms).toNanos =
      total_milliseconds h m s ms * 1000000 := by
  rw [convert_eval]
  unfold Duration.toNanos
  simp only
  have := Nat.div_add_mod (total_milliseconds h m s ms) 1000
  nlinarith [this]

/-- `MouseButton` from src/gui.rs; `rdev::Button` has the same three
variants and the loop maps them one to one (src/window.rs lines 268-272),
so a single type models both. -/
inductive MouseButton
  | Left
  | Middle
  | Right
deriving DecidableEq

/-- `ClickType` from src/gui.rs; the default is `Single`. -/
inductive ClickType
  | Single
  | Double
deriving DecidableEq

/-- `ClickPosition` from src/gui.rs; the default is
`CurrentCursorPosition`. Coordinates are `usize`; the `as f64` casts at
the emission site are modelled as the identity. -/
inductive ClickPosition
  | CurrentCursorPosition
  | Custom (x y : Nat)
deriving DecidableEq

/-- `ClickOptions` from src/gui.rs. -/
structure ClickOptions where
  mouse_button : MouseButton
  click_type : ClickType
deriving DecidableEq

/-- `rdev::EventType`, restricted to the variants the loop emits. -/
inductive EventType
  | MouseMove (x y : Nat)
  | ButtonPress (button : MouseButton)
  | ButtonRelease (button : MouseButton)
deriving DecidableEq

/-- The autoclick thread's local variables (src/window.rs lines 247-251). -/
structure EngineState where
  is_running : Bool
  delay : Duration
  mouse_button : MouseButton
  click_position : ClickPosition
  click_type : ClickType
deriving DecidableEq

/-- The thread's initial locals: not running, zero delay, left button,
current cursor position, single click (src/window.rs lines 247-251). -/
def initState : EngineState :=
  ⟨false, ⟨0, 0⟩, MouseButton.Left, ClickPosition.CurrentCursorPosition, ClickType.Single⟩

/-- The pending contents of the three mpsc configuration channels, oldest
message first. -/
structure Channels where
  interval : List ClickInterval
  options : List ClickOptions
  position : List ClickPosition
deriving DecidableEq

/-- `Receiver::try_recv`: takes the oldest pending message, if any. -/
def tryRecv {α : Type} : List α → Option α × List α
  | [] => (none, [])
  | x :: xs => (some x, xs)

/-- `convert_time_to_duration` applied to a `ClickInterval`'s fields, as
at src/window.rs lines 259-264. -/
def convertInterval (i : ClickInterval) : Duration :=
  convert_time_to_duration i.hours i.minutes i.seconds i.milliseconds

/-- `click_times` (src/window.rs lines 289-292): Single maps to 1, Double
to 2. -/
def clickTimes : ClickType → Nat
  | ClickType.Single => 1
  | ClickType.Double => 2

/-- The press/release events of the `for _ in 0..click_times` loop
(src/window.rs lines 294-297), in emission order. -/
def clickPairs : Nat → MouseButton → List EventType
  | 0, _ => []
  | n + 1, b => EventType.ButtonPress b :: EventType.ButtonRelease b :: clickPairs n b

/-- One emission round (src/window.rs lines 281-298): a move event first
when the position is `Custom`, then the press/release pairs. -/
def emissionRound (pos : ClickPosition) (btn : MouseButton) (ct : ClickType) :
    List EventType :=
  (match pos with
   | ClickPosition.Custom x y => [EventType.MouseMove x y]
   | ClickPosition.CurrentCursorPosition => []) ++
  clickPairs (clickTimes ct) btn

/-- One cycle of the autoclick thread loop (src/window.rs lines 253-301).
`lockRead` is the result of `is_running_autoclick_thread.lock()`: `some v`
when the lock is acquired and the cell holds `v`, `none` when the lock is
poisoned, in which case the `if let Ok` pattern leaves the local
`is_running` unchanged. Each channel is polled once, non-blockingly; the
emission round runs only when the local `is_running` is true. Returns the
remaining channel contents, the updated locals, and the events emitted
this cycle, in order. -/
def engineStep (lockRead : Option Bool) (ch : Channels) (st : EngineState) :
    Channels × EngineState × List EventType :=
  let is_running := match lockRead with
    | some v => v
    | none => st.is_running
  let ri := tryRecv ch.interval
  let delay := match ri.1 with
    | some i => convertInterval i
    | none => st.delay
  let ro := tryRecv ch.options
  let mouse_button := match ro.1 with
    | some o => o.mouse_button
    | none => st.mouse_button
  let click_type := match ro.1 with
    | some o => o.click_type
    | none => st.click_type
  let rp := tryRecv ch.position
  let click_position := match rp.1 with
    | some p => p
    | none => st.click_position
  let events := if is_running then emissionRound click_position mouse_button click_type
    else []
  (⟨ri.2, ro.2, rp.2⟩, ⟨is_running, delay, mouse_button, click_position, click_type⟩, events)

/-- `n` consecutive cycles of the loop, with the same lock-read outcome at
every cycle and no new messages sent meanwhile. -/
def runCycles : Nat → Option Bool → Channels → EngineState → Channels × EngineState
  | 0, _, ch, st => (ch, st)
  | n + 1, lockRead, ch, st =>
      runCycles n lockRead (engineStep lockRead ch st).1 (engineStep lockRead ch st).2.1

/-- Claim C1, counterexample: at hours = 5124095576031 (minutes, seconds,
milliseconds all zero) the intermediate product hours·60·60·1000 exceeds
2^64, yet the converter does not return the maximum representable
duration; instead the 64-bit arithmetic wraps and the result is a smaller
duration than the one for hours = 5124095576030. -/
theorem c1_counterexample :
    2 ^ 64 ≤ 5124095576031 * 60 * 60 * 1000 ∧
    convert_time_to_duration 5124095576031 0 0 0 ≠ durationMax ∧
    (convert_time_to_duration 5124095576031 0 0 0).toNanos <
      (convert_time_to_duration 5124095576030 0 0 0).toNanos :=
  ⟨by norm_num, by decide, by decide⟩

/-- Claim C1 (amended): the converter computes the total milliseconds with
wrapping 64-bit (usize) arithmetic: for every input the result is exactly
the duration of (exact total milliseconds mod 2^64) milliseconds.
Within-range inputs are converted exactly; inputs whose total reaches 2^64
wrap around to a smaller duration — the converter never saturates at the
maximum representable duration. -/
theorem c1_amended_wrap (h m s ms : Nat) :
    (convert_time_to_duration h m s ms).toNanos =
      exactTotalMs h m s ms % 2 ^ 64 * 1000000 := by
  rw [toNanos_convert, total_milliseconds_eq]

/-- Claim C2: for inputs whose total-millisecond sum is representable, the
converted duration is total_ms split into whole seconds plus a nanosecond
remainder of (total_ms mod 1000)·1,000,000, where
total_ms = ms + 1000·s + 60000·m + 3600000·h; in particular
convert(0,0,0,500) is 500 ms and convert(1,1,1,1) is 3,661,001 ms. -/
theorem c2_convert_correct :
    (∀ h m s ms : Nat, exactTotalMs h m s ms < 2 ^ 64 →
      (convert_time_to_duration h m s ms).secs = exactTotalMs h m s ms / 1000 ∧
      (convert_time_to_duration h m s ms).nanos = exactTotalMs h m s ms % 1000 * 1000000) ∧
    convert_time_to_duration 0 0 0 500 = ⟨0, 500000000⟩ ∧
    convert_time_to_duration 1 1 1 1 = ⟨3661, 1000000⟩ := by
  refine ⟨?_, by decide, by decide⟩
  intro h m s ms hlt
  have he : total_milliseconds h m s ms = exactTotalMs h m s ms := by
    rw [total_milliseconds_eq, Nat.mod_eq_of_lt hlt]
  rw [convert_eval, he]
  exact ⟨rfl, rfl⟩

/-- Witness for claim C2 at (h,m,s,ms) = (1,2,3,4): the total 3,723,004 ms
is within range and the converter splits it into 3723 s plus 4 ms. -/
theorem c2_convert_correct_witness :
    exactTotalMs 1 2 3 4 < 2 ^ 64 ∧
    (convert_time_to_duration 1 2 3 4).secs = exactTotalMs 1 2 3 4 / 1000 ∧
    (convert_time_to_duration 1 2 3 4).nanos = exactTotalMs 1 2 3 4 % 1000 * 1000000 :=
  ⟨by decide, c2_convert_correct.1 1 2 3 4 (by decide)⟩

/-- Claim C9, counterexample: increasing the hours argument from
5124095576030 to 5124095576031 (the other three arguments zero) makes the
converted duration strictly smaller, because the 64-bit total-millisecond
arithmetic wraps. -/
theorem c9_counterexample :
    5124095576030 < 5124095576031 ∧
    (convert_time_to_duration 5124095576031 0 0 0).toNanos <
      (convert_time_to_duration 5124095576030 0 0 0).toNanos :=
  ⟨by norm_num, by decide⟩

/-- Claim C9 (amended): increasing any of the four arguments never
decreases the converted duration, provided the larger input's exact
total-millisecond sum still fits in 64 bits (no wrap-around). -/
theorem c9_amended_monotone (h m s ms h2 m2 s2 ms2 : Nat)
    (hh : h ≤ h2) (hm : m ≤ m2) (hs : s ≤ s2) (hms : ms ≤ ms2)
    (hlt : exactTotalMs h2 m2 s2 ms2 < 2 ^ 64) :
    (convert_time_to_duration h m s ms).toNanos ≤
      (convert_time_to_duration h2 m2 s2 ms2).toNanos := by
  rw [toNanos_convert, toNanos_convert, total_milliseconds_eq, total_milliseconds_eq]
  have hle : exactTotalMs h m s ms ≤ exactTotalMs h2 m2 s2 ms2 := by
    unfold exactTotalMs
    omega
  rw [Nat.mod_eq_of_lt hlt, Nat.mod_eq_of_lt (lt_of_le_of_lt hle hlt)]
  exact Nat.mul_le_mul_right _ hle

/-- Witness for claim C9 (amended) at (0,0,0,1) ≤ (1,1,1,2). -/
theorem c9_amended_monotone_witness :
    exactTotalMs 1 1 1 2 < 2 ^ 64 ∧
    (convert_time_to_duration 0 0 0 1).toNanos ≤
      (convert_time_to_duration 1 1 1 2).toNanos :=
  ⟨by decide,
    c9_amended_monotone 0 0 0 1 1 1 1 2 (by decide) (by decide) (by decide) (by decide)
      (by decide)⟩

/-- Claim C10: for every non-overflowing input, the nanosecond remainder
(total mod 1000)·1,000,000 is below 1,000,000,000 and below 2^32, so the
`as u32` narrowing is lossless, `Duration::new` performs no carry and its
panic condition never holds: the converter returns exactly
(total/1000 seconds, (total mod 1000)·1,000,000 nanoseconds). -/
theorem c10_nanos_lossless (h m s ms : Nat)
    (_hlt : exactTotalMs h m s ms < 2 ^ 64) :
    total_milliseconds h m s ms % 1000 * 1000000 < 1000000000 ∧
    total_milliseconds h m s ms % 1000 * 1000000 % 2 ^ 32 =
      total_milliseconds h m s ms % 1000 * 1000000 ∧
    ¬ Duration.newPanics (total_milliseconds h m s ms / 1000)
        (total_milliseconds h m s ms % 1000 * 1000000 % 2 ^ 32) ∧
    convert_time_to_duration h m s ms =
      ⟨total_milliseconds h m s ms / 1000,
        total_milliseconds h m s ms % 1000 * 1000000⟩ := by
  have hmod : total_milliseconds h m s ms % 1000 < 1000 := Nat.mod_lt _ (by norm_num)
  have h9 : total_milliseconds h m s ms % 1000 * 1000000 < 1000000000 := by omega
  have h32 : total_milliseconds h m s ms % 1000 * 1000000 < 2 ^ 32 := by
    have : (2:Nat) ^ 32 = 4294967296 := by norm_num
    omega
  refine ⟨h9, Nat.mod_eq_of_lt h32, ?_, convert_eval h m s ms⟩
  unfold Duration.newPanics
  rw [Nat.mod_eq_of_lt h32, Nat.div_eq_of_lt h9]
  have hdiv : total_milliseconds h m s ms / 1000 < 2 ^ 64 := by
    have h1 := total_milliseconds_lt h m s ms
    have h2 := Nat.div_le_self (total_milliseconds h m s ms) 1000
    omega
  omega

/-- Witness for claim C10 at (0,0,0,1500): total 1500 ms, remainder
500 ms = 500,000,000 ns, no carry. -/
theorem c10_nanos_lossless_witness :
    exactTotalMs 0 0 0 1500 < 2 ^ 64 ∧
    convert_time_to_duration 0 0 0 1500 =
      ⟨total_milliseconds 0 0 0 1500 / 1000,
        total_milliseconds 0 0 0 1500 % 1000 * 1000000⟩ :=
  ⟨by decide, (c10_nanos_lossless 0 0 0 1500 (by decide)).2.2.2⟩

/-- True exactly on move events. -/
def isMouseMove : EventType → Bool
  | EventType.MouseMove _ _ => true
  | _ => false

/-- True exactly on press events of button `b`. -/
def isPressOf (b : MouseButton) : EventType → Bool
  | EventType.ButtonPress c => decide (b = c)
  | _ => false

/-- Every press event in the list is immediately followed by the release
of the same button. -/
def pressesPaired : List EventType → Bool
  | [] => true
  | EventType.ButtonPress b :: rest =>
      match rest with
      | EventType.ButtonRelease c :: rest2 => decide (b = c) && pressesPaired rest2
      | _ => false
  | _ :: rest => pressesPaired rest

lemma clickPairs_no_move (n : Nat) (b : MouseButton) :
    (clickPairs n b).countP isMouseMove = 0 := by
  induction n with
  | zero => rfl
  | succ n ih => simp [clickPairs, List.countP_cons, isMouseMove, ih]

lemma clickPairs_press_count (n : Nat) (b : MouseButton) :
    (clickPairs n b).countP (isPressOf b) = n := by
  induction n with
  | zero => rfl
  | succ n ih => simp [clickPairs, List.countP_cons, isPressOf, ih]

lemma clickPairs_paired (n : Nat) (b : MouseButton) :
    pressesPaired (clickPairs n b) = true := by
  induction n with
  | zero => rfl
  | succ n ih => simp [clickPairs, pressesPaired, ih]

/-- Claim C3: in any loop cycle whose run-state read comes back false, the
emitter is invoked zero times: the cycle emits no events, whatever the
channel contents and prior locals. -/
theorem c3_idle_no_events (ch : Channels) (st : EngineState) :
    (engineStep (some false) ch st).2.2 = [] := rfl

/-- Claim C4: an emission round with snapshot position Custom{x,y} emits
exactly one MouseMove(x,y), placed before every press/release event of
the round; a round with position CurrentCursorPosition emits zero
MouseMove events. The final conjunct ties the round to the loop cycle:
a running cycle emits exactly the emission round of its snapshot. -/
theorem c4_move_emission (x y : Nat) (b : MouseButton) (t : ClickType) :
    emissionRound (ClickPosition.Custom x y) b t =
      EventType.MouseMove x y :: clickPairs (clickTimes t) b ∧
    (emissionRound (ClickPosition.Custom x y) b t).countP isMouseMove = 1 ∧
    (emissionRound ClickPosition.CurrentCursorPosition b t).countP isMouseMove = 0 ∧
    ∀ st : EngineState, (engineStep (some true) ⟨[], [], []⟩ st).2.2 =
      emissionRound st.click_position st.mouse_button st.click_type := by
  refine ⟨rfl, ?_, ?_, fun st => rfl⟩
  · simp [emissionRound, List.countP_cons, isMouseMove, clickPairs_no_move]
  · simp [emissionRound, clickPairs_no_move]

/-- Claim C5: an emission round emits exactly clickTimes press events of
the configured button — 1 for Single, 2 for Double — and every press is
immediately followed by the matching release. -/
theorem c5_click_pairs (pos : ClickPosition) (b : MouseButton) (t : ClickType) :
    (emissionRound pos b t).countP (isPressOf b) = clickTimes t ∧
    clickTimes ClickType.Single = 1 ∧
    clickTimes ClickType.Double = 2 ∧
    pressesPaired (emissionRound pos b t) = true := by
  refine ⟨?_, rfl, rfl, ?_⟩
  · cases pos <;>
      simp [emissionRound, List.countP_cons, isMouseMove, isPressOf, clickPairs_press_count]
  · cases pos <;> cases t <;>
      simp [emissionRound, clickTimes, clickPairs, pressesPaired]

lemma runCycles_interval_nil (k : Nat) (lockRead : Option Bool) :
    ∀ (och : List ClickOptions) (pch : List ClickPosition) (st : EngineState),
      ((runCycles k lockRead ⟨[], och, pch⟩ st).2).delay = st.delay := by
  induction k with
  | zero => intro och pch st; rfl
  | succ k ih =>
      intro och pch st
      simp only [runCycles, engineStep, tryRecv]
      exact ih _ _ _

lemma runCycles_interval_last (q : List ClickInterval) :
    ∀ (i : ClickInterval) (k : Nat) (lockRead : Option Bool)
      (och : List ClickOptions) (pch : List ClickPosition) (st : EngineState),
      ((runCycles (q.length + 1 + k) lockRead ⟨q ++ [i], och, pch⟩ st).2).delay =
        convertInterval i := by
  induction q with
  | nil =>
      intro i k lockRead och pch st
      have hlen : ([] : List ClickInterval).length + 1 + k = k + 1 := by
        simp only [List.length_nil]; omega
      rw [hlen]
      simp only [runCycles, engineStep, tryRecv, List.nil_append]
      exact runCycles_interval_nil k lockRead _ _ _
  | cons a q ih =>
      intro i k lockRead och pch st
      have hlen : (a :: q).length + 1 + k = (q.length + 1 + k) + 1 := by
        simp only [List.length_cons]; omega
      rw [hlen]
      simp only [runCycles, engineStep, tryRecv, List.cons_append]
      exact ih i k lockRead _ _ _

lemma runCycles_options_nil (k : Nat) (lockRead : Option Bool) :
    ∀ (ich : List ClickInterval) (pch : List ClickPosition) (st : EngineState),
      ((runCycles k lockRead ⟨ich, [], pch⟩ st).2).mouse_button = st.mouse_button ∧
      ((runCycles k lockRead ⟨ich, [], pch⟩ st).2).click_type = st.click_type := by
  induction k with
  | zero => intro ich pch st; exact ⟨rfl, rfl⟩
  | succ k ih =>
      intro ich pch st
      simp only [runCycles, engineStep, tryRecv]
      exact ih _ _ _

lemma runCycles_options_last (q : List ClickOptions) :
    ∀ (o : ClickOptions) (k : Nat) (lockRead : Option Bool)
      (ich : List ClickInterval) (pch : List ClickPosition) (st : EngineState),
      ((runCycles (q.length + 1 + k) lockRead ⟨ich, q ++ [o], pch⟩ st).2).mouse_button =
        o.mouse_button ∧
      ((runCycles (q.length + 1 + k) lockRead ⟨ich, q ++ [o], pch⟩ st).2).click_type =
        o.click_type := by
  induction q with
  | nil =>
      intro o k lockRead ich pch st
      have hlen : ([] : List ClickOptions).length + 1 + k = k + 1 := by
        simp only [List.length_nil]; omega
      rw [hlen]
      simp only [runCycles, engineStep, tryRecv, List.nil_append]
      exact runCycles_options_nil k lockRead _ _ _
  | cons a q ih =>
      intro o k lockRead ich pch st
      have hlen : (a :: q).length + 1 + k = (q.length + 1 + k) + 1 := by
        simp only [List.length_cons]; omega
      rw [hlen]
      simp only [runCycles, engineStep, tryRecv, List.cons_append]
      exact ih o k lockRead _ _ _

lemma runCycles_position_nil (k : Nat) (lockRead : Option Bool) :
    ∀ (ich : List ClickInterval) (och : List ClickOptions) (st : EngineState),
      ((runCycles k lockRead ⟨ich, och, []⟩ st).2).click_position = st.click_position := by
  induction k with
  | zero => intro ich och st; rfl
  | succ k ih =>
      intro ich och st
      simp only [runCycles, engineStep, tryRecv]
      exact ih _ _ _

lemma runCycles_position_last (q : List ClickPosition) :
    ∀ (p : ClickPosition) (k : Nat) (lockRead : Option Bool)
      (ich : List ClickInterval) (och : List ClickOptions) (st : EngineState),
      ((runCycles (q.length + 1 + k) lockRead ⟨ich, och, q ++ [p]⟩ st).2).click_position =
        p := by
  induction q with
  | nil =>
      intro p k lockRead ich och st
      have hlen : ([] : List ClickPosition).length + 1 + k = k + 1 := by
        simp only [List.length_nil]; omega
      rw [hlen]
      simp only [runCycles, engineStep, tryRecv, List.nil_append]
      exact runCycles_position_nil k lockRead _ _ _
  | cons a q ih =>
      intro p k lockRead ich och st
      have hlen : (a :: q).length + 1 + k = (q.length + 1 + k) + 1 := by
        simp only [List.length_cons]; omega
      rw [hlen]
      simp only [runCycles, engineStep, tryRecv, List.cons_append]
      exact ih p k lockRead _ _ _

/-- Claim C6, counterexample: with the two interval messages (0,0,0,100)
and (0,0,0,200) already queued when a cycle starts, after that one loop
cycle the snapshot holds the conversion of the FIRST queued message, not
of the most recent one: a message can stay unreflected for more than one
cycle. -/
theorem c6_counterexample :
    (runCycles 1 (some false) ⟨[⟨0, 0, 0, 100⟩, ⟨0, 0, 0, 200⟩], [], []⟩ initState).2.delay ≠
      convertInterval ⟨0, 0, 0, 200⟩ ∧
    (runCycles 1 (some false) ⟨[⟨0, 0, 0, 100⟩, ⟨0, 0, 0, 200⟩], [], []⟩ initState).2.delay =
      convertInterval ⟨0, 0, 0, 100⟩ := by
  constructor <;> decide

/-- Claim C6 (amended): each loop cycle consumes at most one message per
channel, the oldest first; a configuration message that is k-th from the
end of its channel's queue is reflected in the snapshot after the queue
ahead of it is drained — one cycle per queued message — and, with no
further messages, stays reflected in every later cycle. Stated for the
newest message of each of the three channels. -/
theorem c6_amended_one_message_per_cycle :
    (∀ (q : List ClickInterval) (i : ClickInterval) (k : Nat) (lockRead : Option Bool)
      (och : List ClickOptions) (pch : List ClickPosition) (st : EngineState),
      ((runCycles (q.length + 1 + k) lockRead ⟨q ++ [i], och, pch⟩ st).2).delay =
        convertInterval i) ∧
    (∀ (q : List ClickOptions) (o : ClickOptions) (k : Nat) (lockRead : Option Bool)
      (ich : List ClickInterval) (pch : List ClickPosition) (st : EngineState),
      ((runCycles (q.length + 1 + k) lockRead ⟨ich, q ++ [o], pch⟩ st).2).mouse_button =
        o.mouse_button ∧
      ((runCycles (q.length + 1 + k) lockRead ⟨ich, q ++ [o], pch⟩ st).2).click_type =
        o.click_type) ∧
    (∀ (q : List ClickPosition) (p : ClickPosition) (k : Nat) (lockRead : Option Bool)
      (ich : List ClickInterval) (och : List ClickOptions) (st : EngineState),
      ((runCycles (q.length + 1 + k) lockRead ⟨ich, och, q ++ [p]⟩ st).2).click_position =
        p) :=
  ⟨fun q i k lockRead och pch st => runCycles_interval_last q i k lockRead och pch st,
    fun q o k lockRead ich pch st => runCycles_options_last q o k lockRead ich pch st,
    fun q p k lockRead ich och st => runCycles_position_last q p k lockRead ich och st⟩

/-- The toggle operation on the shared run-state cell, as performed by the
Toggle button (src/gui.rs lines 234-238) and the F8 handler
(src/window.rs lines 363-367): it writes the negation of the value it
reads under the lock. -/
def toggleRunState (cell : Bool) : Bool := !cell

/-- Claim C7: toggling twice in succession restores the run-state cell to
its pre-toggle value, because each toggle writes the inverse of the value
read at the moment of toggling. -/
theorem c7_toggle_involutive (cell : Bool) :
    toggleRunState (toggleRunState cell) = cell ∧ toggleRunState cell = !cell :=
  ⟨Bool.not_not cell, rfl⟩

/-- Claim C8, counterexample: when the run-state lock is poisoned (`none`)
and the previous cycle's local run flag was true, the engine still emits
events in that cycle — it does not assume Idle / treat the run state as
false. -/
theorem c8_counterexample :
    (engineStep none ⟨[], [], []⟩
        ⟨true, ⟨0, 0⟩, MouseButton.Left, ClickPosition.CurrentCursorPosition,
          ClickType.Single⟩).2.2 ≠ [] := by
  decide

/-- Claim C8 (amended): when the run-state lock is poisoned the engine
keeps the run-state value from its last successful read and keeps running
(the cycle completes normally, no fault propagates); in particular, if
that last read value was false, the engine stays idle and emits nothing. -/
theorem c8_amended_poisoned_lock (ch : Channels) (st : EngineState) :
    (engineStep none ch st).2.1.is_running = st.is_running ∧
    (st.is_running = false → (engineStep none ch st).2.2 = []) := by
  refine ⟨rfl, fun h => ?_⟩
  simp [engineStep, h]

/-- Witness for claim C8 (amended), with empty channels and the initial
locals (whose run flag is false). -/
theorem c8_amended_poisoned_lock_witness :
    (engineStep none ⟨[], [], []⟩ initState).2.1.is_running = initState.is_running ∧
    (engineStep none ⟨[], [], []⟩ initState).2.2 = [] :=
  ⟨(c8_amended_poisoned_lock ⟨[], [], []⟩ initState).1,
    (c8_amended_poisoned_lock ⟨[], [], []⟩ initState).2 rfl⟩
